import Mathlib

/-!
Shallow embedding of `src/msg/async/rdma/Device.cc` (RDMA device lifecycle
and multi-device completion polling) and proofs about it.

External collaborators (completion queues, completion channels, the memory
manager, the verbs library) are modelled as oracle parameters: a function
argument supplies the value the collaborator call would return.  Process
aborts (`ceph_abort` / failed `assert`) are modelled as `Option.none` results
where a claim is about them, and as the success path where a claim
conditions on success.  Machine integers are modelled as `Nat`/`Int`;
the `int` counters involved never overflow in the scenarios quantified over.
-/

/- ----------------------------------------------------------------------
   DeviceList round-robin polling (`DeviceList::poll_tx` / `poll_rx`,
   Device.cc lines 416-444).

   The per-device call `(*d)->poll_tx_cq(num_entries, wc)` is abstracted as
   an oracle `f : Nat → Int` giving the completion count (or error) that
   device index `i` would report for this call.
   ---------------------------------------------------------------------- -/

/-- Observable outcome of one `poll_tx`/`poll_rx` call: the final value of
the shared cursor `last_poll_dev`, the device index last written through the
out-parameter `*d` (`none` iff the loop body never ran), the returned
completion count `n`, and the list of device indices polled, in order. -/
structure PollOut where
  cursor : Nat
  dev : Option Nat
  n : Int
  visits : List Nat
deriving DecidableEq, Repr

/-- The loop `for (i = 0; i < num; i++) { *d = devices[++last_poll_dev % num];
n = (*d)->poll_..._cq(...); if (n) break; }` with `remaining` iterations left
and current cursor value `cursor`.  `n` is initialised to 0, so exhausting the
loop with no nonzero poll returns 0. -/
def pollLoop (num : Nat) (f : Nat → Int) : Nat → Nat → PollOut
  | 0, cursor => ⟨cursor, none, 0, []⟩
  | remaining + 1, cursor =>
      let c := cursor + 1
      let d := c % num
      let n := f d
      if n = 0 then
        let out := pollLoop num f remaining c
        ⟨out.cursor, some (out.dev.getD d), out.n, d :: out.visits⟩
      else
        ⟨c, some d, n, [d]⟩

/-- `DeviceList` state relevant to polling: the device count `num` and the
shared rotating cursor `last_poll_dev` (one field, shared by both polling
directions). -/
structure DeviceList where
  num : Nat
  last_poll_dev : Nat
deriving DecidableEq, Repr

/-- `DeviceList::poll_tx` (Device.cc lines 416-429): one whole call, given the
per-device tx completion-queue poll results `f`. -/
def DeviceList.poll_tx (dl : DeviceList) (f : Nat → Int) : DeviceList × PollOut :=
  let out := pollLoop dl.num f dl.num dl.last_poll_dev
  (⟨dl.num, out.cursor⟩, out)

/-- `DeviceList::poll_rx` (Device.cc lines 431-444): same control flow as
`poll_tx`, on the rx completion queues, sharing the same cursor field. -/
def DeviceList.poll_rx (dl : DeviceList) (f : Nat → Int) : DeviceList × PollOut :=
  let out := pollLoop dl.num f dl.num dl.last_poll_dev
  (⟨dl.num, out.cursor⟩, out)

/-- State reached after an interleaved sequence of polling calls;
`(true, f)` stands for `poll_tx` with per-device results `f`, `(false, f)`
for `poll_rx`. -/
def DeviceList.pollSeq (dl : DeviceList) : List (Bool × (Nat → Int)) → DeviceList
  | [] => dl
  | (dir, f) :: rest =>
      DeviceList.pollSeq (if dir then (dl.poll_tx f).1 else (dl.poll_rx f).1) rest

lemma pollLoop_all_zero (num : Nat) (hnum : 0 < num) (f : Nat → Int)
    (h : ∀ i, i < num → f i = 0) :
    ∀ r cursor, pollLoop num f r cursor =
      ⟨cursor + r, if r = 0 then none else some ((cursor + r) % num), 0,
        (List.range r).map (fun j => (cursor + 1 + j) % num)⟩ := by
  intro r
  induction r with
  | zero => intro cursor; simp [pollLoop]
  | succ r ih =>
      intro cursor
      have hz : f ((cursor + 1) % num) = 0 := h _ (Nat.mod_lt _ hnum)
      rw [pollLoop]
      simp only [hz, eq_self_iff_true, if_true, ih (cursor + 1), PollOut.mk.injEq]
      refine ⟨by omega, ?_, trivial, ?_⟩
      · rcases Nat.eq_zero_or_pos r with hr | hr
        · subst hr; simp
        · have hr' : r ≠ 0 := Nat.pos_iff_ne_zero.mp hr
          simp only [if_neg hr', Option.getD_some, Nat.succ_ne_zero, if_neg]
          congr 2
          omega
      · conv_rhs => rw [List.range_succ_eq_map, List.map_cons, List.map_map]
        congr 1
        apply List.map_congr_left
        intro a _
        simp only [Function.comp_apply]
        congr 1
        omega

lemma pollLoop_hit (num : Nat) (f : Nat → Int) :
    ∀ r k cursor, k < r →
    (∀ j, j < k → f ((cursor + 1 + j) % num) = 0) →
    f ((cursor + 1 + k) % num) ≠ 0 →
    pollLoop num f r cursor =
      ⟨cursor + 1 + k, some ((cursor + 1 + k) % num), f ((cursor + 1 + k) % num),
        (List.range (k + 1)).map (fun j => (cursor + 1 + j) % num)⟩ := by
  intro r
  induction r with
  | zero => intro k cursor hk; omega
  | succ r ih =>
      intro k cursor hk hzero hhit
      match k with
      | 0 =>
          rw [pollLoop]
          simp only [if_neg hhit]
          simp [List.range_succ]
      | k + 1 =>
          have h0 : f ((cursor + 1) % num) = 0 := by
            have := hzero 0 (Nat.succ_pos _)
            simpa using this
          rw [pollLoop]
          have hstep : ∀ j, j < k → f ((cursor + 1 + 1 + j) % num) = 0 := by
            intro j hj
            have := hzero (j + 1) (by omega)
            have harg : cursor + 1 + (j + 1) = cursor + 1 + 1 + j := by omega
            rwa [harg] at this
          have hhit' : f ((cursor + 1 + 1 + k) % num) ≠ 0 := by
            have harg : cursor + 1 + (k + 1) = cursor + 1 + 1 + k := by omega
            rwa [harg] at hhit
          have harg : cursor + 1 + 1 + k = cursor + 1 + (k + 1) := by omega
          simp only [h0, eq_self_iff_true, if_true, ih k (cursor + 1) (by omega) hstep hhit',
            PollOut.mk.injEq, Option.getD_some]
          refine ⟨by omega, by rw [harg], by rw [harg], ?_⟩
          conv_rhs => rw [List.range_succ_eq_map, List.map_cons, List.map_map]
          congr 1
          apply List.map_congr_left
          intro a _
          simp only [Function.comp_apply]
          congr 1
          omega

lemma pollLoop_dev_last (num : Nat) (f : Nat → Int) :
    ∀ r cursor, (pollLoop num f r cursor).dev =
      (pollLoop num f r cursor).visits.getLast? := by
  intro r
  induction r with
  | zero => intro cursor; simp [pollLoop]
  | succ r ih =>
      intro cursor
      rw [pollLoop]
      by_cases hn : f ((cursor + 1) % num) = 0
      · simp only [hn, eq_self_iff_true, if_true]
        have := ih (cursor + 1)
        cases hv : (pollLoop num f r (cursor + 1)).visits with
        | nil =>
            rw [hv] at this
            simp only [List.getLast?_nil] at this
            simp [this, hv]
        | cons v vs =>
            rw [hv] at this
            simp only [this, hv, List.getLast?_cons_cons]
            cases hgl : (v :: vs).getLast? with
            | none => simp at hgl
            | some x => simp [hgl]
      · simp [hn]

lemma pollLoop_visits_ne_nil (num : Nat) (f : Nat → Int) (r cursor : Nat)
    (hr : 0 < r) : (pollLoop num f r cursor).visits ≠ [] := by
  match r, hr with
  | r + 1, _ =>
      rw [pollLoop]
      by_cases hn : f ((cursor + 1) % num) = 0 <;> simp [hn]

lemma pollSeq_all_zero (N : Nat) (hN : 0 < N)
    (calls : List (Bool × (Nat → Int)))
    (h : ∀ c ∈ calls, ∀ i, i < N → c.2 i = 0) :
    ∀ start, DeviceList.pollSeq ⟨N, start⟩ calls = ⟨N, start + calls.length * N⟩ := by
  induction calls with
  | nil => intro start; simp [DeviceList.pollSeq]
  | cons c rest ih =>
      intro start
      obtain ⟨dir, f⟩ := c
      have hf : ∀ i, i < N → f i = 0 := h (dir, f) (List.mem_cons_self _ _)
      have hrest : ∀ c ∈ rest, ∀ i, i < N → c.2 i = 0 :=
        fun c hc => h c (List.mem_cons_of_mem _ hc)
      have hloop := pollLoop_all_zero N hN f hf N start
      rw [DeviceList.pollSeq]
      have hone : (if dir then (DeviceList.poll_tx ⟨N, start⟩ f).1
          else (DeviceList.poll_rx ⟨N, start⟩ f).1) = ⟨N, start + N⟩ := by
        cases dir <;>
          simp [DeviceList.poll_tx, DeviceList.poll_rx, hloop]
      rw [hone, ih hrest (start + N)]
      have hlen : ((dir, f) :: rest).length = rest.length + 1 := rfl
      rw [hlen]
      congr 1
      ring

/- Concrete oracles used by witness theorems. -/

/-- A per-device poll oracle that always reports zero completions. -/
def zeroPoll : Nat → Int := fun _ => 0

/-- A per-device poll oracle where device 1 reports 7 completions. -/
def onePoll : Nat → Int := fun i => if i = 1 then 7 else 0

/-- A per-device poll oracle where device 1 reports the error code -5. -/
def negPoll : Nat → Int := fun i => if i = 1 then -5 else 0

/-- Two polling calls (one tx, one rx) whose devices all report zero. -/
def zeroCalls : List (Bool × (Nat → Int)) := [(true, zeroPoll), (false, zeroPoll)]

/-- C1: with `N ≥ 1` devices, each `poll_tx`/`poll_rx` call advances the
shared cursor by one before every per-device poll attempt (device index
wrapping modulo `N`), stops at the first device reporting at least one
completion and returns that count; with all devices reporting zero it visits
every device exactly once in the order `(start+1) % N, (start+2) % N, ...`,
returns 0, and advances the cursor by exactly `N`; the cursor is not reset
between calls, so any interleaved sequence of zero-completion `poll_tx`/
`poll_rx` calls continues the same rotation, each call adding exactly `N`. -/
theorem C1_round_robin_fairness
    (N start k : Nat) (f g : Nat → Int) (calls : List (Bool × (Nat → Int)))
    (hN : 0 < N)
    (hf : ∀ i, i < N → f i = 0)
    (hk : k < N)
    (hg0 : ∀ j, j < k → g ((start + 1 + j) % N) = 0)
    (hg1 : 0 < g ((start + 1 + k) % N))
    (hcalls : ∀ c ∈ calls, ∀ i, i < N → c.2 i = 0) :
    DeviceList.poll_tx ⟨N, start⟩ g =
      (⟨N, start + 1 + k⟩, ⟨start + 1 + k, some ((start + 1 + k) % N),
        g ((start + 1 + k) % N), (List.range (k + 1)).map (fun j => (start + 1 + j) % N)⟩)
    ∧ DeviceList.poll_rx ⟨N, start⟩ g =
      (⟨N, start + 1 + k⟩, ⟨start + 1 + k, some ((start + 1 + k) % N),
        g ((start + 1 + k) % N), (List.range (k + 1)).map (fun j => (start + 1 + j) % N)⟩)
    ∧ DeviceList.poll_tx ⟨N, start⟩ f =
      (⟨N, start + N⟩, ⟨start + N, some ((start + N) % N), 0,
        (List.range N).map (fun j => (start + 1 + j) % N)⟩)
    ∧ DeviceList.poll_rx ⟨N, start⟩ f =
      (⟨N, start + N⟩, ⟨start + N, some ((start + N) % N), 0,
        (List.range N).map (fun j => (start + 1 + j) % N)⟩)
    ∧ DeviceList.pollSeq ⟨N, start⟩ calls = ⟨N, start + calls.length * N⟩ := by
  have hhit := pollLoop_hit N g N k start hk hg0 hg1.ne'
  have hzero := pollLoop_all_zero N hN f hf N start
  have hNne : N ≠ 0 := by omega
  rw [if_neg hNne] at hzero
  exact ⟨by simp [DeviceList.poll_tx, hhit], by simp [DeviceList.poll_rx, hhit],
    by simp [DeviceList.poll_tx, hzero], by simp [DeviceList.poll_rx, hzero],
    pollSeq_all_zero N hN calls hcalls start⟩

/-- Witness for C1 at `N = 2`, `start = 0`: the hit oracle stops at device 1
with count 7 and cursor 1; the all-zero oracle visits devices 1 then 0,
returns 0 and moves the cursor to 2; two consecutive all-zero calls (one tx,
one rx) moves the cursor to 4. -/
theorem C1_round_robin_fairness_witness :
    (0 < 2 ∧ (∀ i, i < 2 → zeroPoll i = 0) ∧ (0 < 2)
      ∧ (∀ j, j < 0 → onePoll ((0 + 1 + j) % 2) = 0)
      ∧ 0 < onePoll ((0 + 1 + 0) % 2)
      ∧ (∀ c ∈ zeroCalls, ∀ i, i < 2 → c.2 i = 0))
    ∧ DeviceList.poll_tx ⟨2, 0⟩ onePoll = (⟨2, 1⟩, ⟨1, some 1, 7, [1]⟩)
    ∧ DeviceList.poll_rx ⟨2, 0⟩ onePoll = (⟨2, 1⟩, ⟨1, some 1, 7, [1]⟩)
    ∧ DeviceList.poll_tx ⟨2, 0⟩ zeroPoll = (⟨2, 2⟩, ⟨2, some 0, 0, [1, 0]⟩)
    ∧ DeviceList.poll_rx ⟨2, 0⟩ zeroPoll = (⟨2, 2⟩, ⟨2, some 0, 0, [1, 0]⟩)
    ∧ DeviceList.pollSeq ⟨2, 0⟩ zeroCalls = ⟨2, 4⟩ := by
  have h := C1_round_robin_fairness 2 0 0 zeroPoll onePoll zeroCalls
    (by decide) (by decide) (by decide) (by decide) (by decide) (by decide)
  exact ⟨⟨by decide, by decide, by decide, by decide, by decide, by decide⟩,
    h.1, h.2.1, h.2.2.1, h.2.2.2.1, h.2.2.2.2⟩

/-- C10: with at least one device, `poll_tx`/`poll_rx` always write the
out-device pointer (the loop body runs at least once), leaving it at the last
device polled even on a zero return; and the loop exits at the first nonzero
per-device result, so a negative error code from a device's poll is returned
to the caller unchanged rather than being treated as zero completions. -/
theorem C10_out_device_and_error_propagation
    (N start k : Nat) (f g : Nat → Int)
    (hN : 0 < N) (hk : k < N)
    (hg0 : ∀ j, j < k → g ((start + 1 + j) % N) = 0)
    (hg1 : g ((start + 1 + k) % N) < 0) :
    ((DeviceList.poll_tx ⟨N, start⟩ f).2.dev
        = ((DeviceList.poll_tx ⟨N, start⟩ f).2.visits).getLast?
      ∧ (DeviceList.poll_tx ⟨N, start⟩ f).2.visits ≠ []
      ∧ (DeviceList.poll_tx ⟨N, start⟩ f).2.dev ≠ none)
    ∧ ((DeviceList.poll_rx ⟨N, start⟩ f).2.dev
        = ((DeviceList.poll_rx ⟨N, start⟩ f).2.visits).getLast?
      ∧ (DeviceList.poll_rx ⟨N, start⟩ f).2.visits ≠ []
      ∧ (DeviceList.poll_rx ⟨N, start⟩ f).2.dev ≠ none)
    ∧ (DeviceList.poll_tx ⟨N, start⟩ g).2.n = g ((start + 1 + k) % N)
    ∧ (DeviceList.poll_tx ⟨N, start⟩ g).2.n < 0
    ∧ (DeviceList.poll_rx ⟨N, start⟩ g).2.n = g ((start + 1 + k) % N) := by
  have hlast := pollLoop_dev_last N f N start
  have hne := pollLoop_visits_ne_nil N f N start hN
  have hhit := pollLoop_hit N g N k start hk hg0 hg1.ne
  have hdev : (pollLoop N f N start).dev ≠ none := by
    rw [hlast]
    cases hv : (pollLoop N f N start).visits with
    | nil => exact absurd hv hne
    | cons v vs => simp [List.getLast?_cons_cons]
  refine ⟨⟨?_, ?_, ?_⟩, ⟨?_, ?_, ?_⟩, ?_, ?_, ?_⟩ <;>
    simp [DeviceList.poll_tx, DeviceList.poll_rx, hlast, hne, hdev, hhit, hg1]

/-- Witness for C10 at `N = 2`, `start = 0`: with the all-zero oracle the
out-device is written (device 0, the last visited); with an oracle whose
device 1 reports -5, the call returns -5. -/
theorem C10_out_device_and_error_propagation_witness :
    (0 < 2 ∧ 0 < 2
      ∧ (∀ j, j < 0 → negPoll ((0 + 1 + j) % 2) = 0)
      ∧ negPoll ((0 + 1 + 0) % 2) < 0)
    ∧ (DeviceList.poll_tx ⟨2, 0⟩ zeroPoll).2.dev = some 0
    ∧ (DeviceList.poll_tx ⟨2, 0⟩ zeroPoll).2.dev ≠ none
    ∧ (DeviceList.poll_tx ⟨2, 0⟩ negPoll).2.n = -5
    ∧ (DeviceList.poll_rx ⟨2, 0⟩ negPoll).2.n = -5 := by
  have h := C10_out_device_and_error_propagation 2 0 0 zeroPoll negPoll
    (by decide) (by decide) (by decide) (by decide)
  exact ⟨⟨by decide, by decide, by decide, by decide⟩,
    by decide, h.1.2.2, by decide, by decide⟩

/- ----------------------------------------------------------------------
   Device lifecycle (`Device::Device`, `Device::init`, `Device::uninit`,
   Device.cc lines 111-200).
   ---------------------------------------------------------------------- -/

/-- Capability snapshot from `ibv_query_device` (the fields `init` uses). -/
structure ibv_device_attr where
  max_srq_wr : Int
  max_qp_wr : Int
  max_cqe : Int
deriving DecidableEq, Repr

/-- Configuration options consumed by `Device::init`. -/
structure RDMAConfig where
  ms_async_rdma_receive_buffers : Int
  ms_async_rdma_send_buffers : Int
deriving DecidableEq, Repr

/-- Ownership state of one `Device`.  A resource field is `true` while the
device owns a live instance of that resource; `delete` (or never having
created it) makes it `false`.  The raw C++ pointer value is not modelled,
only whether the pointed-to resource is currently alive and owned. -/
structure Device where
  pd : Bool
  memory_manager : Bool
  srq : Bool
  tx_cc : Bool
  rx_cc : Bool
  tx_cq : Bool
  rx_cq : Bool
  initialized : Bool
  max_send_wr : Int
  max_recv_wr : Int
deriving DecidableEq, Repr

/-- `Device::Device` (lines 111-136): opens the device, queries capabilities,
and eagerly creates both completion channels, asserting success.  The other
fields start absent/false per the member declarations in `Device.h` (the
header is not under `src/`; the spec's data model says a freshly enumerated
device is uninitialized with no other owned resources). -/
def Device.construct : Device :=
  ⟨false, false, false, true, true, false, false, false, 0, 0⟩

/-- `Device::init` (lines 138-180), success path: early-return if already
initialized; otherwise create the protection domain, compute the two
operating limits with `std::min`, create the memory manager and the shared
receive queue, pre-post the receive chunks, create both completion queues,
and set `initialized`.  `init` contains no assignment to `tx_cc`/`rx_cc`:
the completion channels are created only by the constructor. -/
def Device.init (d : Device) (attr : ibv_device_attr) (conf : RDMAConfig) : Device :=
  if d.initialized then d
  else
    { d with
      pd := true,
      max_recv_wr := min attr.max_srq_wr conf.ms_async_rdma_receive_buffers,
      max_send_wr := min attr.max_qp_wr conf.ms_async_rdma_send_buffers,
      memory_manager := true,
      srq := true,
      tx_cq := true,
      rx_cq := true,
      initialized := true }

/-- `Device::uninit` (lines 182-200): no-op when not initialized; otherwise
acknowledge pending channel events, clear `initialized`, and delete both
completion queues, both completion channels, the shared receive queue, the
memory manager and the protection domain. -/
def Device.uninit (d : Device) : Device :=
  if !d.initialized then d
  else
    { d with
      initialized := false,
      rx_cq := false, tx_cq := false, rx_cc := false, tx_cc := false,
      srq := false, memory_manager := false, pd := false }

/-- C2 counterexample: running `init(); uninit(); init()` from construction
with concrete capabilities/configuration, the second `init()` succeeds and
marks the device initialized, but the completion channels that `uninit()`
destroyed are never re-created (`init` has no assignment to them), so the
full five-resource set — which includes both completion-queue/completion-
channel pairs — is not re-established, contrary to the claim's final
conjunct. -/
theorem C2_reinit_counterexample :
    ((Device.construct.init ⟨1024, 1024, 30000⟩ ⟨512, 512⟩).uninit.init
        ⟨1024, 1024, 30000⟩ ⟨512, 512⟩).initialized = true
    ∧ ((Device.construct.init ⟨1024, 1024, 30000⟩ ⟨512, 512⟩).uninit.init
        ⟨1024, 1024, 30000⟩ ⟨512, 512⟩).tx_cc = false
    ∧ ((Device.construct.init ⟨1024, 1024, 30000⟩ ⟨512, 512⟩).uninit.init
        ⟨1024, 1024, 30000⟩ ⟨512, 512⟩).rx_cc = false := by decide

/-- C2 (amended): after the first successful `init()` all five owned
resources (protection domain, memory manager, shared receive queue, and the
tx and rx completion-queue/completion-channel pairs) are present and
`initialized` is true; after `uninit()` all of them are released and
`initialized` is false; a subsequent `init()` after `uninit()` re-establishes
the protection domain, memory manager, shared receive queue and both
completion queues and sets `initialized`, but not the completion channels,
which `uninit()` destroyed and `init()` does not re-create. -/
theorem C2_device_resource_lifecycle (attr : ibv_device_attr) (conf : RDMAConfig) :
    ((Device.construct.init attr conf).pd = true
      ∧ (Device.construct.init attr conf).memory_manager = true
      ∧ (Device.construct.init attr conf).srq = true
      ∧ (Device.construct.init attr conf).tx_cq = true
      ∧ (Device.construct.init attr conf).tx_cc = true
      ∧ (Device.construct.init attr conf).rx_cq = true
      ∧ (Device.construct.init attr conf).rx_cc = true
      ∧ (Device.construct.init attr conf).initialized = true)
    ∧ ((Device.construct.init attr conf).uninit.pd = false
      ∧ (Device.construct.init attr conf).uninit.memory_manager = false
      ∧ (Device.construct.init attr conf).uninit.srq = false
      ∧ (Device.construct.init attr conf).uninit.tx_cq = false
      ∧ (Device.construct.init attr conf).uninit.tx_cc = false
      ∧ (Device.construct.init attr conf).uninit.rx_cq = false
      ∧ (Device.construct.init attr conf).uninit.rx_cc = false
      ∧ (Device.construct.init attr conf).uninit.initialized = false)
    ∧ (((Device.construct.init attr conf).uninit.init attr conf).pd = true
      ∧ ((Device.construct.init attr conf).uninit.init attr conf).memory_manager = true
      ∧ ((Device.construct.init attr conf).uninit.init attr conf).srq = true
      ∧ ((Device.construct.init attr conf).uninit.init attr conf).tx_cq = true
      ∧ ((Device.construct.init attr conf).uninit.init attr conf).rx_cq = true
      ∧ ((Device.construct.init attr conf).uninit.init attr conf).initialized = true
      ∧ ((Device.construct.init attr conf).uninit.init attr conf).tx_cc = false
      ∧ ((Device.construct.init attr conf).uninit.init attr conf).rx_cc = false) := by
  exact ⟨⟨rfl, rfl, rfl, rfl, rfl, rfl, rfl, rfl⟩,
    ⟨rfl, rfl, rfl, rfl, rfl, rfl, rfl, rfl⟩,
    ⟨rfl, rfl, rfl, rfl, rfl, rfl, rfl, rfl⟩⟩

/-- C3: `init()` on an already-initialized device returns immediately with
the device state unchanged, and `uninit()` on a non-initialized device is a
no-op; consequently `init` after `init`, and `uninit` after `uninit`, leave
the state unchanged. -/
theorem C3_init_uninit_idempotent
    (d e : Device) (attr : ibv_device_attr) (conf : RDMAConfig)
    (hd : d.initialized = true) (he : e.initialized = false) :
    d.init attr conf = d
    ∧ e.uninit = e
    ∧ (e.init attr conf).init attr conf = e.init attr conf
    ∧ d.uninit.uninit = d.uninit := by
  refine ⟨by rw [Device.init, if_pos hd], by rw [Device.uninit]; simp [he], ?_, ?_⟩
  · have h1 : (e.init attr conf).initialized = true := by
      rw [Device.init]
      simp [he]
    conv_lhs => rw [Device.init]
    rw [if_pos h1]
  · have h2 : d.uninit.initialized = false := by
      rw [Device.uninit]
      simp [hd]
    conv_lhs => rw [Device.uninit]
    simp [h2]

/-- Witness for C3 on a concrete initialized device and a concrete fresh
device. -/
theorem C3_init_uninit_idempotent_witness :
    ((Device.construct.init ⟨1, 1, 1⟩ ⟨1, 1⟩).initialized = true
      ∧ Device.construct.initialized = false)
    ∧ (Device.construct.init ⟨1, 1, 1⟩ ⟨1, 1⟩).init ⟨1, 1, 1⟩ ⟨1, 1⟩
        = Device.construct.init ⟨1, 1, 1⟩ ⟨1, 1⟩
    ∧ Device.construct.uninit = Device.construct := by
  have h := C3_init_uninit_idempotent (Device.construct.init ⟨1, 1, 1⟩ ⟨1, 1⟩)
    Device.construct ⟨1, 1, 1⟩ ⟨1, 1⟩ (by decide) (by decide)
  exact ⟨⟨by decide, by decide⟩, h.1, h.2.1⟩

/-- C5: a successful `init()` sets `max_recv_wr` to the minimum of the
capability's `max_srq_wr` and the configured receive-buffer count, and
`max_send_wr` to the minimum of the capability's `max_qp_wr` and the
configured send-buffer count; hence neither limit exceeds its capability
bound or its configured bound. -/
theorem C5_operating_limits
    (d : Device) (attr : ibv_device_attr) (conf : RDMAConfig)
    (hd : d.initialized = false) :
    (d.init attr conf).max_recv_wr
        = min attr.max_srq_wr conf.ms_async_rdma_receive_buffers
    ∧ (d.init attr conf).max_send_wr
        = min attr.max_qp_wr conf.ms_async_rdma_send_buffers
    ∧ (d.init attr conf).max_recv_wr ≤ attr.max_srq_wr
    ∧ (d.init attr conf).max_recv_wr ≤ conf.ms_async_rdma_receive_buffers
    ∧ (d.init attr conf).max_send_wr ≤ attr.max_qp_wr
    ∧ (d.init attr conf).max_send_wr ≤ conf.ms_async_rdma_send_buffers := by
  refine ⟨?_, ?_, ?_, ?_, ?_, ?_⟩ <;>
    simp [Device.init, hd, min_le_left, min_le_right]

/-- Witness for C5 with capability `max_srq_wr = 1024`, `max_qp_wr = 2048`,
configured 512 receive buffers and 4096 send buffers. -/
theorem C5_operating_limits_witness :
    Device.construct.initialized = false
    ∧ (Device.construct.init ⟨1024, 2048, 30000⟩ ⟨512, 4096⟩).max_recv_wr = 512
    ∧ (Device.construct.init ⟨1024, 2048, 30000⟩ ⟨512, 4096⟩).max_send_wr = 2048 := by
  have h := C5_operating_limits Device.construct ⟨1024, 2048, 30000⟩ ⟨512, 4096⟩
    (by decide)
  exact ⟨by decide, h.1.trans (by decide), h.2.1.trans (by decide)⟩

/- ----------------------------------------------------------------------
   Port GID selection (`Port::Port`, HAVE_IBV_EXP path, Device.cc
   lines 32-108).
   ---------------------------------------------------------------------- -/

/-- One GID table entry as seen by the scan in `Port::Port`: its
addressing-protocol type (`gid_attr.type`) and its 16-byte GID value (the
`ibv_query_gid` / `ibv_exp_query_gid_attr` queries are assumed to succeed;
their failure aborts before any selection). -/
structure GidEntry where
  gid_type : Nat
  gid : List Nat
deriving DecidableEq, Repr

/-- The match test of lines 83-84: the entry's type equals the configured
`ms_async_rdma_roce_ver` and its GID bytes equal the parsed target
(`memcmp(&gid, &cgid, 16) == 0`). -/
def gidMatch (roce_ver : Nat) (cgid : List Nat) (e : GidEntry) : Bool :=
  e.gid_type == roce_ver && e.gid == cgid

/-- The scan loop of lines 70-88 for a well-formed target: returns the final
value of `gid_idx`, i.e. `idx` plus the position of the first matching entry,
or `idx` plus the table length when no entry matches. -/
def gid_scan (roce_ver : Nat) (cgid : List Nat) : List GidEntry → Nat → Nat
  | [], idx => idx
  | e :: rest, idx =>
      if gidMatch roce_ver cgid e then idx
      else gid_scan roce_ver cgid rest (idx + 1)

/-- GID selection in `Port::Port` (lines 51-93).  `target` is the outcome of
the `sscanf` of `ms_async_rdma_local_gid` with 16 two-digit hex conversions:
`none` when fewer than 16 bytes parsed (`malformed`, line 63), otherwise the
16 parsed bytes.  Malformed target: the loop body runs once at index 0 and
breaks (line 82), selecting index 0, except that with an empty GID table the
loop never runs and the final check `gid_idx == gid_tbl_len` (line 90)
aborts.  Well-formed target: the first matching index is selected; if the
scan exhausts the table, the constructor aborts (`none`). -/
def gid_select (roce_ver : Nat) (target : Option (List Nat))
    (table : List GidEntry) : Option Nat :=
  match target with
  | none => if table.length = 0 then none else some 0
  | some cgid =>
      let idx := gid_scan roce_ver cgid table 0
      if idx = table.length then none else some idx

lemma gid_scan_no_match (roce_ver : Nat) (cgid : List Nat) :
    ∀ (l : List GidEntry) (idx : Nat),
      (∀ e ∈ l, gidMatch roce_ver cgid e = false) →
      gid_scan roce_ver cgid l idx = idx + l.length := by
  intro l
  induction l with
  | nil => intro idx _; simp [gid_scan]
  | cons e rest ih =>
      intro idx h
      have he := h e (List.mem_cons_self _ _)
      rw [gid_scan]
      simp only [he, Bool.false_eq_true, if_false]
      rw [ih (idx + 1) (fun x hx => h x (List.mem_cons_of_mem _ hx))]
      simp only [List.length_cons]
      omega

lemma gid_scan_hit (roce_ver : Nat) (cgid : List Nat) :
    ∀ (l : List GidEntry) (k idx : Nat), k < l.length →
      (∀ j, j < k → gidMatch roce_ver cgid (l.getD j ⟨0, []⟩) = false) →
      gidMatch roce_ver cgid (l.getD k ⟨0, []⟩) = true →
      gid_scan roce_ver cgid l idx = idx + k := by
  intro l
  induction l with
  | nil => intro k idx hk; simp at hk
  | cons e rest ih =>
      intro k idx hk hpre hhit
      match k with
      | 0 =>
          rw [gid_scan]
          simp only [List.getD] at hhit
          simp only [List.get?_cons_zero, Option.getD_some] at hhit
          simp [hhit]
      | k + 1 =>
          have h0 : gidMatch roce_ver cgid e = false := by
            have := hpre 0 (Nat.succ_pos _)
            simpa [List.getD] using this
          rw [gid_scan]
          simp only [h0, Bool.false_eq_true, if_false]
          have hk' : k < rest.length := by
            simp only [List.length_cons] at hk; omega
          have hpre' : ∀ j, j < k → gidMatch roce_ver cgid (rest.getD j ⟨0, []⟩) = false := by
            intro j hj
            have := hpre (j + 1) (by omega)
            simpa [List.getD] using this
          have hhit' : gidMatch roce_ver cgid (rest.getD k ⟨0, []⟩) = true := by
            simpa [List.getD] using hhit
          rw [ih k (idx + 1) hk' hpre' hhit']
          omega

/-- C4: GID selection in `Port::Port`: with a malformed target (fewer than
16 parsed hex bytes) index 0 is selected for every nonempty GID table,
independent of the table's contents; with a well-formed 16-byte target the
scan selects the first index whose addressing-protocol type equals the
configured protocol version and whose GID bytes equal the target exactly;
and with a well-formed target matching no entry the scan exhausts the table
and aborts fatally. -/
theorem C4_gid_selection
    (roce_ver : Nat) (cgid : List Nat)
    (tableA table tableB : List GidEntry) (k : Nat)
    (hA : tableA ≠ [])
    (hk : k < table.length)
    (hpre : ∀ j, j < k → gidMatch roce_ver cgid (table.getD j ⟨0, []⟩) = false)
    (hhit : gidMatch roce_ver cgid (table.getD k ⟨0, []⟩) = true)
    (hB : ∀ e ∈ tableB, gidMatch roce_ver cgid e = false) :
    gid_select roce_ver none tableA = some 0
    ∧ gid_select roce_ver (some cgid) table = some k
    ∧ gid_select roce_ver (some cgid) tableB = none := by
  refine ⟨?_, ?_, ?_⟩
  · have hlen : tableA.length ≠ 0 := by
      cases tableA with
      | nil => exact absurd rfl hA
      | cons a l => simp
    simp [gid_select, hlen]
  · have hs := gid_scan_hit roce_ver cgid table k 0 hk hpre hhit
    have hne : (0 : Nat) + k ≠ table.length := by omega
    have hne' : k ≠ table.length := by omega
    simp only [gid_select, hs, Nat.zero_add, if_neg hne']
  · have hs := gid_scan_no_match roce_ver cgid tableB 0 hB
    simp [gid_select, hs]

/-- The 16-byte target GID used in the C4 witness. -/
def cgid16 : List Nat := List.replicate 16 7

/-- A nonempty GID table with contents unrelated to the target. -/
def gidTableA : List GidEntry := [⟨0, [9]⟩]

/-- A GID table whose first matching entry for type 1 / `cgid16` is at
index 3 (index 0 has the right bytes but the wrong type, index 1 the right
type but wrong bytes). -/
def gidTable : List GidEntry :=
  [⟨0, cgid16⟩, ⟨1, [1]⟩, ⟨0, [2]⟩, ⟨1, cgid16⟩]

/-- A GID table with no entry matching type 1 / `cgid16`. -/
def gidTableB : List GidEntry := [⟨0, cgid16⟩, ⟨1, [1]⟩]

/-- Witness for C4: the malformed target selects index 0 of `gidTableA`; the
well-formed target selects index 3 of `gidTable` (the spec's own example);
and on `gidTableB` the scan exhausts the table and aborts. -/
theorem C4_gid_selection_witness :
    (gidTableA ≠ [] ∧ (3 : Nat) < gidTable.length
      ∧ (∀ j, j < 3 → gidMatch 1 cgid16 (gidTable.getD j ⟨0, []⟩) = false)
      ∧ gidMatch 1 cgid16 (gidTable.getD 3 ⟨0, []⟩) = true
      ∧ (∀ e ∈ gidTableB, gidMatch 1 cgid16 e = false))
    ∧ gid_select 1 none gidTableA = some 0
    ∧ gid_select 1 (some cgid16) gidTable = some 3
    ∧ gid_select 1 (some cgid16) gidTableB = none := by
  have h := C4_gid_selection 1 cgid16 gidTableA gidTable gidTableB 3
    (by decide) (by decide) (by decide) (by decide) (by decide)
  exact ⟨⟨by decide, by decide, by decide, by decide, by decide⟩,
    h.1, h.2.1, h.2.2⟩

/- ----------------------------------------------------------------------
   Buffer posting (`Device::post_chunk`, `Device::post_channel_cluster`,
   Device.cc lines 297-328).
   ---------------------------------------------------------------------- -/

/-- A registered receive buffer chunk (external type consumed by this core):
`addr` is the address of the chunk object itself (the identity that
`post_chunk` stashes as `wr_id` via `reinterpret_cast`), `buffer` its buffer
address, `bytes` its length, and `lkey` the local key of its memory region
(`chunk->mr->lkey`). -/
structure Chunk where
  addr : Nat
  buffer : Nat
  bytes : Nat
  lkey : Nat
deriving DecidableEq, Repr

/-- One scatter/gather element (`ibv_sge`). -/
structure ibv_sge where
  addr : Nat
  length : Nat
  lkey : Nat
deriving DecidableEq, Repr

/-- A receive work request as built by `Device::post_chunk`: the correlation
tag `wr_id`, the scatter list and its element count. -/
structure ibv_recv_wr where
  wr_id : Nat
  sg_list : List ibv_sge
  num_sge : Nat
deriving DecidableEq, Repr

/-- The receive descriptor `post_chunk` builds for a chunk (lines 299-309):
a single segment carrying the chunk's buffer address, length and local key,
with the chunk's identity as `wr_id` and `num_sge = 1`. -/
def build_recv_wr (chunk : Chunk) : ibv_recv_wr :=
  ⟨chunk.addr, [⟨chunk.buffer, chunk.bytes, chunk.lkey⟩], 1⟩

/-- `Device::post_chunk` (lines 297-316): builds the descriptor and submits
it to the shared receive queue via `ibv_post_srq_recv` (modelled by the
oracle `srq_recv`, giving that call's return value); on a nonzero return it
returns `-errno` (`errno` being the OS error value the failed call set),
otherwise 0. -/
def post_chunk (srq_recv : ibv_recv_wr → Int) (errno : Nat) (chunk : Chunk) : Int :=
  let ret := srq_recv (build_recv_wr chunk)
  if ret ≠ 0 then -(errno : Int) else 0

/-- The posting loop of `post_channel_cluster` (lines 323-326): posts each
chunk in order, aborting (`none`, the failed `assert(r == 0)`) at the first
post returning nonzero; on success returns the list of chunks posted, in
order.  `post c` is the result `post_chunk` returns for chunk `c`. -/
def post_cluster_loop (post : Chunk → Int) : List Chunk → Option (List Chunk)
  | [] => some []
  | c :: rest =>
      if post c = 0 then (post_cluster_loop post rest).map (fun l => c :: l)
      else none

/-- `Device::post_channel_cluster` (lines 318-328): requests the full free
receive-chunk set from the memory manager (`get_channel_buffers` with
`min_bytes = 0`; its returned count is the number of chunks delivered),
asserts the count is positive, posts every chunk asserting each post
returns 0, and returns 0.  `none` models a failed assertion; on success the
result carries the posted chunks and the returned value 0. -/
def post_channel_cluster (post : Chunk → Int) (free_chunks : List Chunk) :
    Option (List Chunk × Int) :=
  if 0 < free_chunks.length then
    (post_cluster_loop post free_chunks).map (fun l => (l, 0))
  else none

lemma post_cluster_loop_all_zero (post : Chunk → Int) :
    ∀ l : List Chunk, (∀ c ∈ l, post c = 0) → post_cluster_loop post l = some l := by
  intro l
  induction l with
  | nil => intro _; rfl
  | cons c rest ih =>
      intro h
      rw [post_cluster_loop]
      rw [if_pos (h c (List.mem_cons_self _ _))]
      rw [ih (fun x hx => h x (List.mem_cons_of_mem _ hx))]
      rfl

lemma post_cluster_loop_bad (post : Chunk → Int) (bad : Chunk) (hbad : post bad ≠ 0) :
    ∀ l : List Chunk, bad ∈ l → post_cluster_loop post l = none := by
  intro l
  induction l with
  | nil => intro h; simp at h
  | cons c rest ih =>
      intro h
      rw [post_cluster_loop]
      by_cases hc : post c = 0
      · have hmem : bad ∈ rest := by
          rcases List.mem_cons.mp h with h1 | h1
          · exact absurd (h1 ▸ hc) hbad
          · exact h1
        rw [if_pos hc, ih hmem]
        rfl
      · rw [if_neg hc]

/-- C6: `post_channel_cluster` posts every chunk the memory manager returns
exactly once (the posted sequence equals the returned chunk list) and
returns 0 when every post succeeds; it aborts fatally when the memory
manager returns zero chunks, and aborts fatally when any individual post
returns nonzero. -/
theorem C6_post_channel_cluster
    (post post2 : Chunk → Int) (chunks chunks2 : List Chunk) (bad : Chunk)
    (hne : chunks ≠ [])
    (hall : ∀ c ∈ chunks, post c = 0)
    (hmem : bad ∈ chunks2)
    (hbad : post2 bad ≠ 0) :
    post_channel_cluster post chunks = some (chunks, 0)
    ∧ post_channel_cluster post [] = none
    ∧ post_channel_cluster post2 chunks2 = none := by
  refine ⟨?_, by simp [post_channel_cluster], ?_⟩
  · have hpos : 0 < chunks.length := List.length_pos.mpr hne
    rw [post_channel_cluster, if_pos hpos, post_cluster_loop_all_zero post chunks hall]
    rfl
  · rw [post_channel_cluster]
    by_cases hpos : 0 < chunks2.length
    · rw [if_pos hpos, post_cluster_loop_bad post2 bad hbad chunks2 hmem]
      rfl
    · rw [if_neg hpos]

/-- Witness for C6 on a two-chunk pool: the all-success post posts both
chunks and returns 0; the empty pool aborts; a pool whose second chunk's
post fails aborts. -/
theorem C6_post_channel_cluster_witness :
    ([(⟨1, 2, 3, 4⟩ : Chunk), ⟨5, 6, 7, 8⟩] ≠ ([] : List Chunk)
      ∧ (∀ c ∈ [(⟨1, 2, 3, 4⟩ : Chunk), ⟨5, 6, 7, 8⟩], (fun _ : Chunk => (0 : Int)) c = 0)
      ∧ (⟨5, 6, 7, 8⟩ : Chunk) ∈ [(⟨1, 2, 3, 4⟩ : Chunk), ⟨5, 6, 7, 8⟩]
      ∧ (fun c : Chunk => if c.addr = 5 then (12 : Int) else 0) ⟨5, 6, 7, 8⟩ ≠ 0)
    ∧ post_channel_cluster (fun _ => 0) [⟨1, 2, 3, 4⟩, ⟨5, 6, 7, 8⟩]
        = some ([⟨1, 2, 3, 4⟩, ⟨5, 6, 7, 8⟩], 0)
    ∧ post_channel_cluster (fun _ => 0) [] = none
    ∧ post_channel_cluster (fun c => if c.addr = 5 then 12 else 0)
        [⟨1, 2, 3, 4⟩, ⟨5, 6, 7, 8⟩] = none := by
  have h := C6_post_channel_cluster (fun _ => 0)
    (fun c => if c.addr = 5 then 12 else 0)
    [⟨1, 2, 3, 4⟩, ⟨5, 6, 7, 8⟩] [⟨1, 2, 3, 4⟩, ⟨5, 6, 7, 8⟩] ⟨5, 6, 7, 8⟩
    (by decide) (by decide) (by decide) (by decide)
  exact ⟨⟨by decide, by decide, by decide, by decide⟩, h.1, h.2.1, h.2.2⟩

/-- C7: `post_chunk` builds a single-segment receive descriptor carrying the
chunk's buffer address, length and local key, with the chunk's identity as
the correlation tag; it returns 0 exactly when the submission succeeds, and
a negative OS error code (`-errno`) exactly when the submission fails. -/
theorem C7_post_chunk
    (chunk : Chunk) (s1 s2 : ibv_recv_wr → Int) (errno : Nat)
    (h1 : s1 (build_recv_wr chunk) = 0)
    (h2 : s2 (build_recv_wr chunk) ≠ 0)
    (herr : 0 < errno) :
    (build_recv_wr chunk).wr_id = chunk.addr
    ∧ (build_recv_wr chunk).sg_list = [⟨chunk.buffer, chunk.bytes, chunk.lkey⟩]
    ∧ (build_recv_wr chunk).num_sge = 1
    ∧ post_chunk s1 errno chunk = 0
    ∧ post_chunk s2 errno chunk = -(errno : Int)
    ∧ post_chunk s2 errno chunk < 0 := by
  refine ⟨rfl, rfl, rfl, ?_, ?_, ?_⟩
  · simp [post_chunk, h1]
  · simp [post_chunk, h2]
  · simp only [post_chunk, if_pos h2]
    omega

/-- Witness for C7 on a concrete chunk, a succeeding submission, a failing
submission and `errno = 22` (EINVAL). -/
theorem C7_post_chunk_witness :
    ((fun _ : ibv_recv_wr => (0 : Int)) (build_recv_wr ⟨100, 200, 4096, 5⟩) = 0
      ∧ (fun _ : ibv_recv_wr => (1 : Int)) (build_recv_wr ⟨100, 200, 4096, 5⟩) ≠ 0
      ∧ 0 < 22)
    ∧ (build_recv_wr ⟨100, 200, 4096, 5⟩).wr_id = 100
    ∧ (build_recv_wr ⟨100, 200, 4096, 5⟩).sg_list = [⟨200, 4096, 5⟩]
    ∧ (build_recv_wr ⟨100, 200, 4096, 5⟩).num_sge = 1
    ∧ post_chunk (fun _ => 0) 22 ⟨100, 200, 4096, 5⟩ = 0
    ∧ post_chunk (fun _ => 1) 22 ⟨100, 200, 4096, 5⟩ = -22 := by
  have h := C7_post_chunk ⟨100, 200, 4096, 5⟩ (fun _ => 0) (fun _ => 1) 22
    (by decide) (by decide) (by decide)
  exact ⟨⟨by decide, by decide, by decide⟩, h.1, h.2.1, h.2.2.1,
    h.2.2.2.1, h.2.2.2.2.1⟩

/- ----------------------------------------------------------------------
   Device-level polling and re-arm (`Device::poll_tx_cq`,
   `Device::poll_rx_cq`, `Device::rearm_cqs`, Device.cc lines 335-363).
   ---------------------------------------------------------------------- -/

/-- `Device::poll_tx_cq` (lines 335-341): returns 0 without touching the
completion queue when the device is not initialized; otherwise delegates to
`tx_cq->poll_cq` (the oracle value `cq_poll`) and returns its result.  The
`Bool` records whether the completion queue was polled. -/
def Device.poll_tx_cq (d : Device) (cq_poll : Int) : Int × Bool :=
  if !d.initialized then (0, false) else (cq_poll, true)

/-- `Device::poll_rx_cq` (lines 343-349): same guard, on the rx queue. -/
def Device.poll_rx_cq (d : Device) (cq_poll : Int) : Int × Bool :=
  if !d.initialized then (0, false) else (cq_poll, true)

/-- `Device::rearm_cqs` (lines 351-363): returns without re-arming anything
when the device is not initialized; otherwise re-arms the tx completion
queue then the rx one (`tx_rearm`/`rx_rearm` are the two `rearm_notify`
results), asserting each returns 0.  The result records which queues were
re-armed; `none` models the fatal failed assert. -/
def Device.rearm_cqs (d : Device) (tx_rearm rx_rearm : Int) : Option (Bool × Bool) :=
  if !d.initialized then some (false, false)
  else if tx_rearm ≠ 0 then none
  else if rx_rearm ≠ 0 then none
  else some (true, true)

/-- C8: on a non-initialized device, `poll_tx_cq`/`poll_rx_cq` return 0
without polling any completion queue and `rearm_cqs` re-arms nothing; on an
initialized device they delegate to the completion queue's poll and return
its count, and `rearm_cqs` re-arms both queues, failing fatally if either
re-arm returns nonzero. -/
theorem C8_uninitialized_guards
    (d e : Device) (tx rx a b : Int)
    (hd : d.initialized = false) (he : e.initialized = true)
    (ha : a ≠ 0) (hb : b ≠ 0) :
    d.poll_tx_cq tx = (0, false)
    ∧ d.poll_rx_cq rx = (0, false)
    ∧ d.rearm_cqs a b = some (false, false)
    ∧ e.poll_tx_cq tx = (tx, true)
    ∧ e.poll_rx_cq rx = (rx, true)
    ∧ e.rearm_cqs 0 0 = some (true, true)
    ∧ e.rearm_cqs a b = none
    ∧ e.rearm_cqs 0 b = none := by
  refine ⟨?_, ?_, ?_, ?_, ?_, ?_, ?_, ?_⟩ <;>
    simp [Device.poll_tx_cq, Device.poll_rx_cq, Device.rearm_cqs, hd, he, ha, hb]

/-- Witness for C8 on a fresh (non-initialized) device and an initialized
device, with poll results 3 and 4 and failing re-arm results 1 and 2. -/
theorem C8_uninitialized_guards_witness :
    (Device.construct.initialized = false
      ∧ (Device.construct.init ⟨1, 1, 1⟩ ⟨1, 1⟩).initialized = true
      ∧ (1 : Int) ≠ 0 ∧ (2 : Int) ≠ 0)
    ∧ Device.construct.poll_tx_cq 3 = (0, false)
    ∧ Device.construct.poll_rx_cq 4 = (0, false)
    ∧ Device.construct.rearm_cqs 1 2 = some (false, false)
    ∧ (Device.construct.init ⟨1, 1, 1⟩ ⟨1, 1⟩).poll_tx_cq 3 = (3, true)
    ∧ (Device.construct.init ⟨1, 1, 1⟩ ⟨1, 1⟩).poll_rx_cq 4 = (4, true)
    ∧ (Device.construct.init ⟨1, 1, 1⟩ ⟨1, 1⟩).rearm_cqs 0 0 = some (true, true)
    ∧ (Device.construct.init ⟨1, 1, 1⟩ ⟨1, 1⟩).rearm_cqs 1 2 = none := by
  have h := C8_uninitialized_guards Device.construct
    (Device.construct.init ⟨1, 1, 1⟩ ⟨1, 1⟩) 3 4 1 2
    (by decide) (by decide) (by decide) (by decide)
  exact ⟨⟨by decide, by decide, by decide, by decide⟩,
    h.1, h.2.1, h.2.2.1, h.2.2.2.1, h.2.2.2.2.1, h.2.2.2.2.2.1, h.2.2.2.2.2.2.1⟩

/- ----------------------------------------------------------------------
   Blocking wait (`DeviceList::poll_blocking`, Device.cc lines 446-472).
   ---------------------------------------------------------------------- -/

/-- Outcome of `DeviceList::poll_blocking`: `ret r calls drained` is a
normal return of `r` after `calls` invocations of the wait primitive
`poll(2)`, where `drained` lists the device indices whose tx and rx
completion channels each had one pending notification drained
(`get_cq_event`, a no-op on a device with no pending event) before
returning; `fatal` models `ceph_abort` after a negative `poll(2)` result;
`spin` means the wait loop was still running after the modelled number of
iterations. -/
inductive BlockOut where
  | ret (r : Int) (calls : Nat) (drained : List Nat)
  | fatal
  | spin
deriving DecidableEq, Repr

/-- The epilogue after the wait loop (lines 458-471): a non-positive `r` is
returned as-is with no draining; a positive `r` first drains one pending
event from every device's tx and rx channels (devices `0..num-1`, in
order), then is returned. -/
def poll_blocking_finish (num : Nat) (r : Int) (calls : Nat) : BlockOut :=
  if r ≤ 0 then .ret r calls [] else .ret r calls (List.range num)

/-- The wait loop `while (!done && r == 0) { r = poll(..., 1); if (r < 0)
abort; }` (lines 448-456).  `dn i` is the value of the caller's cancellation
flag read before the `i`-th `poll(2)` invocation, `poll_res i` that
invocation's result, and `fuel` bounds how many iterations are modelled. -/
def poll_blocking_loop (num : Nat) (poll_res : Nat → Int) (dn : Nat → Bool) :
    Nat → Nat → Int → BlockOut
  | 0, i, r =>
      if dn i = true ∨ r ≠ 0 then poll_blocking_finish num r i else .spin
  | fuel + 1, i, r =>
      if dn i = true ∨ r ≠ 0 then poll_blocking_finish num r i
      else
        let r' := poll_res i
        if r' < 0 then .fatal
        else poll_blocking_loop num poll_res dn fuel (i + 1) r'

/-- `DeviceList::poll_blocking`, started from `r = 0` with no poll calls
made yet. -/
def poll_blocking (num fuel : Nat) (poll_res : Nat → Int) (dn : Nat → Bool) :
    BlockOut :=
  poll_blocking_loop num poll_res dn fuel 0 0

lemma poll_blocking_loop_exit (num : Nat) (p : Nat → Int) (dn : Nat → Bool)
    (fuel i : Nat) (r : Int) (h : dn i = true ∨ r ≠ 0) :
    poll_blocking_loop num p dn fuel i r = poll_blocking_finish num r i := by
  cases fuel <;> rw [poll_blocking_loop] <;> rw [if_pos h]

lemma poll_blocking_loop_pos (num : Nat) (poll_res : Nat → Int) (dn : Nat → Bool) :
    ∀ k fuel i, k < fuel →
      (∀ j, j ≤ k → dn (i + j) = false) →
      (∀ j, j < k → poll_res (i + j) = 0) →
      0 < poll_res (i + k) →
      poll_blocking_loop num poll_res dn fuel i 0 =
        .ret (poll_res (i + k)) (i + k + 1) (List.range num) := by
  intro k
  induction k with
  | zero =>
      intro fuel i hfuel hdone hzero hpos
      match fuel, hfuel with
      | fuel + 1, _ =>
          have hd : dn i = false := by simpa using hdone 0 (Nat.le_refl 0)
          have hp : 0 < poll_res i := by simpa using hpos
          rw [poll_blocking_loop]
          have hcond : ¬(dn i = true ∨ (0 : Int) ≠ 0) := by simp [hd]
          rw [if_neg hcond, if_neg (by omega : ¬ poll_res i < 0)]
          rw [poll_blocking_loop_exit num poll_res dn fuel (i + 1) (poll_res i)
            (Or.inr (by omega))]
          rw [poll_blocking_finish, if_neg (by omega : ¬ poll_res i ≤ 0)]
          simp
  | succ k ih =>
      intro fuel i hfuel hdone hzero hpos
      match fuel, hfuel with
      | fuel + 1, _ =>
          have hd : dn i = false := by simpa using hdone 0 (Nat.zero_le _)
          have h0 : poll_res i = 0 := by simpa using hzero 0 (Nat.succ_pos _)
          rw [poll_blocking_loop]
          have hcond : ¬(dn i = true ∨ (0 : Int) ≠ 0) := by simp [hd]
          rw [if_neg hcond, h0, if_neg (by omega : ¬ (0 : Int) < 0)]
          have hdone' : ∀ j, j ≤ k → dn (i + 1 + j) = false := by
            intro j hj
            have := hdone (j + 1) (by omega)
            rwa [show i + (j + 1) = i + 1 + j by omega] at this
          have hzero' : ∀ j, j < k → poll_res (i + 1 + j) = 0 := by
            intro j hj
            have := hzero (j + 1) (by omega)
            rwa [show i + (j + 1) = i + 1 + j by omega] at this
          have hpos' : 0 < poll_res (i + 1 + k) := by
            rwa [show i + (k + 1) = i + 1 + k by omega] at hpos
          rw [ih fuel (i + 1) (by omega) hdone' hzero' hpos']
          rw [show i + 1 + k = i + (k + 1) by omega]

lemma poll_blocking_finish_ret_pos (num : Nat) (r r' : Int) (i c : Nat)
    (ds : List Nat) (h : poll_blocking_finish num r i = .ret r' c ds)
    (hr : 0 < r') : ds = List.range num := by
  rw [poll_blocking_finish] at h
  by_cases hle : r ≤ 0
  · rw [if_pos hle, BlockOut.ret.injEq] at h
    omega
  · rw [if_neg hle, BlockOut.ret.injEq] at h
    exact h.2.2.symm

lemma poll_blocking_ret_pos (num : Nat) (poll_res : Nat → Int) (dn : Nat → Bool)
    (r' : Int) (c : Nat) (ds : List Nat) :
    ∀ fuel i r, poll_blocking_loop num poll_res dn fuel i r = .ret r' c ds →
      0 < r' → ds = List.range num := by
  intro fuel
  induction fuel with
  | zero =>
      intro i r h hr
      rw [poll_blocking_loop] at h
      by_cases hc : dn i = true ∨ r ≠ 0
      · rw [if_pos hc] at h
        exact poll_blocking_finish_ret_pos num r r' i c ds h hr
      · rw [if_neg hc] at h
        simp at h
  | succ fuel ih =>
      intro i r h hr
      rw [poll_blocking_loop] at h
      by_cases hc : dn i = true ∨ r ≠ 0
      · rw [if_pos hc] at h
        exact poll_blocking_finish_ret_pos num r r' i c ds h hr
      · rw [if_neg hc] at h
        by_cases hneg : poll_res i < 0
        · rw [if_pos hneg] at h
          simp at h
        · rw [if_neg hneg] at h
          exact ih (i + 1) (poll_res i) h hr

/-- C9: `poll_blocking` called with the done flag already true returns 0
immediately, without ever invoking the wait primitive and draining nothing;
and whenever the wait primitive returns a positive result, the call drains
one pending notification from every device's tx and rx completion channels
(devices `0..num-1`) before returning that positive result. -/
theorem C9_poll_blocking
    (num fuel k c3 : Nat) (p1 p2 p3 : Nat → Int) (d1 d2 d3 : Nat → Bool)
    (r3 : Int) (ds3 : List Nat)
    (h1 : d1 0 = true)
    (hk : k < fuel)
    (h2d : ∀ j, j ≤ k → d2 j = false)
    (h2z : ∀ j, j < k → p2 j = 0)
    (h2p : 0 < p2 k)
    (h3 : poll_blocking num fuel p3 d3 = .ret r3 c3 ds3)
    (h3p : 0 < r3) :
    poll_blocking num fuel p1 d1 = .ret 0 0 []
    ∧ poll_blocking num fuel p2 d2 = .ret (p2 k) (k + 1) (List.range num)
    ∧ ds3 = List.range num := by
  refine ⟨?_, ?_, ?_⟩
  · rw [poll_blocking,
      poll_blocking_loop_exit num p1 d1 fuel 0 0 (Or.inl h1),
      poll_blocking_finish, if_pos (by omega : (0 : Int) ≤ 0)]
  · have h2d' : ∀ j, j ≤ k → d2 (0 + j) = false := by
      intro j hj; rw [Nat.zero_add]; exact h2d j hj
    have h2z' : ∀ j, j < k → p2 (0 + j) = 0 := by
      intro j hj; rw [Nat.zero_add]; exact h2z j hj
    have h2p' : 0 < p2 (0 + k) := by rwa [Nat.zero_add]
    have := poll_blocking_loop_pos num p2 d2 k fuel 0 hk h2d' h2z' h2p'
    rw [poll_blocking]
    simpa using this
  · exact poll_blocking_ret_pos num p3 d3 r3 c3 ds3 fuel 0 0 h3 h3p

/-- Witness for C9 with 2 devices and fuel 3: a pre-set done flag returns 0
with zero poll invocations; a wait whose second invocation returns 7 drains
both devices' channels and returns 7 after 2 invocations. -/
theorem C9_poll_blocking_witness :
    ((fun _ : Nat => true) 0 = true
      ∧ (1 : Nat) < 3
      ∧ (∀ j, j ≤ 1 → (fun _ : Nat => false) j = false)
      ∧ (∀ j, j < 1 → onePoll j = 0)
      ∧ 0 < onePoll 1
      ∧ poll_blocking 2 3 onePoll (fun _ => false) = .ret 7 2 [0, 1]
      ∧ (0 : Int) < 7)
    ∧ poll_blocking 2 3 zeroPoll (fun _ => true) = .ret 0 0 []
    ∧ poll_blocking 2 3 onePoll (fun _ => false) = .ret (onePoll 1) 2 (List.range 2)
    ∧ [0, 1] = List.range 2 := by
  have h := C9_poll_blocking 2 3 1 2 zeroPoll onePoll onePoll
    (fun _ => true) (fun _ => false) (fun _ => false) 7 [0, 1]
    (by decide) (by decide) (by decide) (by decide) (by decide) (by decide)
    (by decide)
  exact ⟨⟨by decide, by decide, by decide, by decide, by decide, by decide,
    by decide⟩, h.1, h.2.1, h.2.2⟩
